import Mathlib

/-!
Verification of the watermelon-chicken-farm game engine.

Shallow embedding conventions:
* JavaScript numbers are modelled as exact rationals (`ℚ`); timestamps are
  millisecond values of type `ℚ`.
* Every source function that reads the wall clock (`Date.now()`) takes the
  current time as an explicit argument `now`.
* `Math.sqrt(dx^2+dy^2) <= r` is embedded as `dx^2 + dy^2 ≤ r^2`, which is
  equivalent for `r ≥ 0` since squaring is monotone on nonnegative reals.
* TypeScript `map` loops that additionally write a captured local variable
  (`collectedSeed`, `watermelonsHarvested`, `watermelonsUsed`,
  `upgradeCost`/`success`) are embedded as a left fold carrying the updated
  list together with that variable, or, for the first-match-wins seed
  collection, as a structural recursion that stops at the first match.
* `localStorage` plus `JSON.stringify`/`JSON.parse` round-tripping is
  modelled as the identity on the state value.
* JavaScript truthiness on `plantedAt : number | null` means the value `0`
  is treated like `null`; the embedding keeps that extra check.
-/

namespace WatermelonFarm

/-- Seed rarity tiers, from `type SeedType` in the source. -/
inductive SeedType
  | basic
  | silver
  | gold
  | crystal
deriving DecidableEq, Repr

/-- Chicken tiers, from `type ChickenType` in the source. -/
inductive ChickenType
  | basic
  | fat
  | golden
  | cosmic
deriving DecidableEq, Repr

/-- Static per-seed-type configuration, from `interface SeedConfig`. -/
structure SeedConfig where
  type : SeedType
  growTime : ℚ
  yield : ℚ
  color : String
  unlockCost : ℚ
deriving DecidableEq, Repr

/-- The `SEED_CONFIGS` table. -/
def SEED_CONFIGS : SeedType → SeedConfig
  | .basic => ⟨.basic, 30, 1, "#4a7c23", 0⟩
  | .silver => ⟨.silver, 60, 3, "#a8a8a8", 100⟩
  | .gold => ⟨.gold, 120, 8, "#ffd700", 500⟩
  | .crystal => ⟨.crystal, 300, 25, "#00ffff", 2000⟩

/-- Static per-chicken-type configuration, from `interface ChickenConfig`. -/
structure ChickenConfig where
  type : ChickenType
  eggsPerMinute : ℚ
  feedDuration : ℚ
  upgradeCost : ℚ
  color : String
deriving DecidableEq, Repr

/-- The `CHICKEN_CONFIGS` table. -/
def CHICKEN_CONFIGS : ChickenType → ChickenConfig
  | .basic => ⟨.basic, 1, 60, 0, "#ffffff"⟩
  | .fat => ⟨.fat, 3, 90, 200, "#ffcc00"⟩
  | .golden => ⟨.golden, 10, 120, 1000, "#ffd700"⟩
  | .cosmic => ⟨.cosmic, 50, 180, 5000, "#ff00ff"⟩

/-- A collectible forest seed, from `interface Seed`. -/
structure Seed where
  id : String
  type : SeedType
  x : ℚ
  y : ℚ
  respawnTime : ℚ
  collected : Bool
deriving DecidableEq, Repr

/-- A farm plot, from `interface Plot`. -/
structure Plot where
  id : ℕ
  planted : Bool
  seedType : Option SeedType
  plantedAt : Option ℚ
  growthProgress : ℚ
  fertilityLevel : ℚ
  x : ℚ
  y : ℚ
deriving DecidableEq, Repr

/-- A chicken, from `interface Chicken`. -/
structure Chicken where
  id : ℕ
  type : ChickenType
  fedUntil : ℚ
  eggsProduced : ℚ
  x : ℚ
  y : ℚ
deriving DecidableEq, Repr

/-- Per-seed-type inventory counts, from `seeds: Partial.Record SeedType number`
with missing entries read as 0. -/
structure SeedInventory where
  basic : ℕ
  silver : ℕ
  gold : ℕ
  crystal : ℕ
deriving DecidableEq, Repr

/-- Read one count, the `player.seeds[seedType] || 0` access. -/
def SeedInventory.get (inv : SeedInventory) : SeedType → ℕ
  | .basic => inv.basic
  | .silver => inv.silver
  | .gold => inv.gold
  | .crystal => inv.crystal

/-- Functional update of one count, the computed-key spread update. -/
def SeedInventory.set (inv : SeedInventory) : SeedType → ℕ → SeedInventory
  | .basic, n => { inv with basic := n }
  | .silver, n => { inv with silver := n }
  | .gold, n => { inv with gold := n }
  | .crystal, n => { inv with crystal := n }

/-- The player record, from `interface Player`. -/
structure Player where
  x : ℚ
  y : ℚ
  speed : ℚ
  seeds : SeedInventory
  watermelons : ℚ
  coins : ℚ
  eggs : ℚ
deriving DecidableEq, Repr

/-- The five upgrade magnitudes, from `interface Upgrades`. -/
structure Upgrades where
  seedBagCapacity : ℚ
  walkingSpeed : ℚ
  plotFertility : ℚ
  chickenHunger : ℚ
  eggValue : ℚ
deriving DecidableEq, Repr

/-- Keys of the `Upgrades` record, the `keyof Upgrades` type. -/
inductive UpgradeId
  | seedBagCapacity
  | walkingSpeed
  | plotFertility
  | chickenHunger
  | eggValue
deriving DecidableEq, Repr

/-- Dynamic field read `upgrades[id]`. -/
def Upgrades.get (u : Upgrades) : UpgradeId → ℚ
  | .seedBagCapacity => u.seedBagCapacity
  | .walkingSpeed => u.walkingSpeed
  | .plotFertility => u.plotFertility
  | .chickenHunger => u.chickenHunger
  | .eggValue => u.eggValue

/-- Dynamic field update, the computed-key spread update on `Upgrades`. -/
def Upgrades.set (u : Upgrades) : UpgradeId → ℚ → Upgrades
  | .seedBagCapacity, v => { u with seedBagCapacity := v }
  | .walkingSpeed, v => { u with walkingSpeed := v }
  | .plotFertility, v => { u with plotFertility := v }
  | .chickenHunger, v => { u with chickenHunger := v }
  | .eggValue, v => { u with eggValue := v }

/-- One entry of the upgrade catalog, from `interface UpgradeDefinition`. -/
structure UpgradeDefinition where
  id : UpgradeId
  name : String
  description : String
  baseCost : ℚ
  costMultiplier : ℚ
  maxLevel : ℕ
  effect : ℚ
deriving DecidableEq, Repr

/-- The `UPGRADE_DEFINITIONS` table. -/
def UPGRADE_DEFINITIONS : List UpgradeDefinition :=
  [ ⟨.seedBagCapacity, "Seed Bag", "Carry more seeds", 50, 1.5, 10, 5⟩,
    ⟨.walkingSpeed, "Walking Speed", "Move faster", 75, 1.8, 8, 0.2⟩,
    ⟨.plotFertility, "Plot Fertility", "Faster growth", 100, 2, 10, 0.15⟩,
    ⟨.chickenHunger, "Chicken Feed", "Chickens stay fed longer", 80, 1.6, 10, 0.2⟩,
    ⟨.eggValue, "Egg Value", "Eggs worth more", 150, 2.2, 15, 0.5⟩ ]

/-- A decorative tree with its size tier. -/
structure Tree where
  x : ℚ
  y : ℚ
  size : ℕ
deriving DecidableEq, Repr

/-- A bush position. -/
structure Bush where
  x : ℚ
  y : ℚ
deriving DecidableEq, Repr

/-- The forest area state, from `interface ForestState`. -/
structure ForestState where
  seeds : List Seed
  trees : List Tree
  bushes : List Bush
deriving DecidableEq, Repr

/-- The farm area state, from `interface FarmState`. -/
structure FarmState where
  plots : List Plot
  chickens : List Chicken
deriving DecidableEq, Repr

/-- The two areas, from `type GameArea`. -/
inductive GameArea
  | forest
  | farm
deriving DecidableEq, Repr

/-- The root game state, from `interface GameState`. -/
structure GameState where
  player : Player
  forest : ForestState
  farm : FarmState
  upgrades : Upgrades
  currentArea : GameArea
  lastUpdate : ℚ
  unlockedSeeds : List SeedType
  totalCoinsEarned : ℚ
  zoom : ℚ
deriving DecidableEq, Repr

/-- Game constants from `types.ts`. -/
def SEED_RESPAWN_TIME : ℚ := 15

def EGG_TO_COIN_RATE : ℚ := 1

def PLOT_COST : ℚ := 100

def CHICKEN_COST : ℚ := 150

/-- Result record of `updateFarm` and `calculateOfflineProgress`. -/
structure FarmTickResult where
  farm : FarmState
  eggsProduced : ℚ
  coinsEarned : ℚ
deriving DecidableEq, Repr

/-- Result record of `harvestPlot`. -/
structure HarvestResult where
  farm : FarmState
  watermelons : ℚ
deriving DecidableEq, Repr

/-- Result record of `feedChicken`. -/
structure FeedResult where
  farm : FarmState
  watermelonsUsed : ℚ
deriving DecidableEq, Repr

/-- Result record of `upgradeChicken`. -/
structure UpgradeChickenResult where
  farm : FarmState
  cost : ℚ
  success : Bool
deriving DecidableEq, Repr

/-- Result record of `collectSeed`. -/
structure CollectResult where
  forest : ForestState
  collectedSeed : Option Seed
deriving DecidableEq, Repr

/-- `initializeFarm`: 2 empty plots at the fixed grid positions and 1 hungry
basic chicken. -/
def initializeFarm : FarmState :=
  { plots :=
      [ { id := 0, planted := false, seedType := none, plantedAt := none,
          growthProgress := 0, fertilityLevel := 1, x := 100, y := 150 },
        { id := 1, planted := false, seedType := none, plantedAt := none,
          growthProgress := 0, fertilityLevel := 1, x := 160, y := 150 } ],
    chickens :=
      [ { id := 0, type := .basic, fedUntil := 0, eggsProduced := 0,
          x := 500, y := 200 } ] }

/-- The per-plot growth recomputation shared verbatim by `updateFarm` and
`calculateOfflineProgress`: skip the plot unless it is planted with a seed
type and a truthy `plantedAt` (JS treats the timestamp `0` as falsy),
otherwise set `growthProgress` to
`min 1 (((now - plantedAt)/1000) / (growTime / (fertility · upgrade)))`. -/
def growPlot (upgrades : Upgrades) (now : ℚ) (plot : Plot) : Plot :=
  match plot.planted, plot.seedType, plot.plantedAt with
  | true, some st, some plantedAt =>
    if plantedAt = 0 then plot
    else
      let seedConfig := SEED_CONFIGS st
      let growTime := seedConfig.growTime / (plot.fertilityLevel * upgrades.plotFertility)
      let elapsed := (now - plantedAt) / 1000
      let progress := min 1 (elapsed / growTime)
      { plot with growthProgress := progress }
  | _, _, _ => plot

/-- Eggs a chicken produces in one live tick: fed chickens produce
`eggsPerMinute/60 · deltaSeconds`, hungry chickens nothing. -/
def chickenTickEggs (now deltaSeconds : ℚ) (chicken : Chicken) : ℚ :=
  if now < chicken.fedUntil then
    ((CHICKEN_CONFIGS chicken.type).eggsPerMinute / 60) * deltaSeconds
  else 0

/-- `updateFarm`: recompute every plot, add this tick's eggs to every fed
chicken, and report the tick's egg and coin totals. -/
def updateFarm (farm : FarmState) (upgrades : Upgrades) (deltaTime now : ℚ) :
    FarmTickResult :=
  let deltaSeconds := deltaTime / 1000
  let updatedPlots := farm.plots.map (growPlot upgrades now)
  let updatedChickens := farm.chickens.map fun chicken =>
    if now < chicken.fedUntil then
      { chicken with eggsProduced :=
          chicken.eggsProduced +
            ((CHICKEN_CONFIGS chicken.type).eggsPerMinute / 60) * deltaSeconds }
    else chicken
  let totalEggsProduced := (farm.chickens.map (chickenTickEggs now deltaSeconds)).sum
  let coinsEarned := totalEggsProduced * EGG_TO_COIN_RATE * upgrades.eggValue
  ⟨{ farm with plots := updatedPlots, chickens := updatedChickens },
    totalEggsProduced, coinsEarned⟩

/-- `plantSeed`: mark the matching empty plot planted at time `now`. -/
def plantSeed (farm : FarmState) (plotId : ℕ) (seedType : SeedType) (now : ℚ) :
    FarmState :=
  { farm with plots := farm.plots.map fun plot =>
      if plot.id = plotId ∧ plot.planted = false then
        { plot with planted := true,
                    seedType := some seedType,
                    plantedAt := some now,
                    growthProgress := 0 }
      else plot }

/-- One step of the `harvestPlot` loop: a plot matching the id that is planted,
mature and carries a seed type is reset and its yield overwrites the
`watermelonsHarvested` variable. -/
def harvestStep (plotId : ℕ) (acc : List Plot × ℚ) (plot : Plot) : List Plot × ℚ :=
  match plot.seedType with
  | some st =>
    if plot.id = plotId ∧ plot.planted = true ∧ 1 ≤ plot.growthProgress then
      (acc.1 ++ [{ plot with planted := false,
                             seedType := none,
                             plantedAt := none,
                             growthProgress := 0 }], (SEED_CONFIGS st).yield)
    else (acc.1 ++ [plot], acc.2)
  | none => (acc.1 ++ [plot], acc.2)

/-- `harvestPlot`. -/
def harvestPlot (farm : FarmState) (plotId : ℕ) : HarvestResult :=
  let r := farm.plots.foldl (harvestStep plotId) ([], 0)
  ⟨{ farm with plots := r.1 }, r.2⟩

/-- One step of the `feedChicken` loop: any chicken matching the id has its
`fedUntil` extended and sets `watermelonsUsed` to 1. -/
def feedStep (chickenId : ℕ) (upgrades : Upgrades) (now : ℚ)
    (acc : List Chicken × ℚ) (chicken : Chicken) : List Chicken × ℚ :=
  if chicken.id = chickenId then
    (acc.1 ++ [{ chicken with fedUntil :=
        now + (CHICKEN_CONFIGS chicken.type).feedDuration * upgrades.chickenHunger * 1000 }],
      1)
  else (acc.1 ++ [chicken], acc.2)

/-- `feedChicken`. -/
def feedChicken (farm : FarmState) (chickenId : ℕ) (upgrades : Upgrades)
    (now : ℚ) : FeedResult :=
  let r := farm.chickens.foldl (feedStep chickenId upgrades now) ([], 0)
  ⟨{ farm with chickens := r.1 }, r.2⟩

/-- `buyPlot`: append a plot with the next sequential id at the grid position
derived from that id. -/
def buyPlot (farm : FarmState) : FarmState :=
  let newId := farm.plots.length
  { farm with plots := farm.plots ++
      [ { id := newId, planted := false, seedType := none, plantedAt := none,
          growthProgress := 0, fertilityLevel := 1,
          x := 100 + ((newId % 4 : ℕ) : ℚ) * 60,
          y := 150 + ((newId / 4 : ℕ) : ℚ) * 60 } ] }

/-- `buyChicken`: append a basic hungry chicken with the next sequential id. -/
def buyChicken (farm : FarmState) : FarmState :=
  let newId := farm.chickens.length
  { farm with chickens := farm.chickens ++
      [ { id := newId, type := .basic, fedUntil := 0, eggsProduced := 0,
          x := 450 + ((newId % 3 : ℕ) : ℚ) * 50,
          y := 150 + ((newId / 3 : ℕ) : ℚ) * 50 } ] }

/-- Successor along `typeOrder = [basic, fat, golden, cosmic]`: the value of
`typeOrder[indexOf(type)+1]` when `indexOf(type) < typeOrder.length - 1`. -/
def nextChickenType : ChickenType → Option ChickenType
  | .basic => some .fat
  | .fat => some .golden
  | .golden => some .cosmic
  | .cosmic => none

/-- One step of the `upgradeChicken` loop: a chicken matching the id that is
below the top tier advances one tier and overwrites the captured
`upgradeCost`/`success` variables. -/
def upgradeStep (chickenId : ℕ) (acc : List Chicken × ℚ × Bool)
    (chicken : Chicken) : List Chicken × ℚ × Bool :=
  if chicken.id = chickenId then
    match nextChickenType chicken.type with
    | some nextType =>
      (acc.1 ++ [{ chicken with type := nextType }],
        (CHICKEN_CONFIGS nextType).upgradeCost, true)
    | none => (acc.1 ++ [chicken], acc.2)
  else (acc.1 ++ [chicken], acc.2)

/-- `upgradeChicken`. -/
def upgradeChicken (farm : FarmState) (chickenId : ℕ) : UpgradeChickenResult :=
  let r := farm.chickens.foldl (upgradeStep chickenId) ([], 0, false)
  ⟨{ farm with chickens := r.1 }, r.2.1, r.2.2⟩

/-- Per-chicken offline egg production as computed inside
`calculateOfflineProgress`, given the already-capped offline window. -/
def offlineChickenEggs (lastUpdate cappedOfflineTime : ℚ) (chicken : Chicken) : ℚ :=
  let config := CHICKEN_CONFIGS chicken.type
  let fedTimeRemaining := max 0 (chicken.fedUntil - lastUpdate)
  let fedTimeDuringOffline := min fedTimeRemaining cappedOfflineTime
  (config.eggsPerMinute / 60000) * fedTimeDuringOffline

/-- `calculateOfflineProgress`: cap the offline window at 24 hours, recompute
plot growth from absolute timestamps, and credit each chicken the eggs for
the part of the window it was still fed. -/
def calculateOfflineProgress (farm : FarmState) (upgrades : Upgrades)
    (lastUpdate now : ℚ) : FarmTickResult :=
  let offlineTime := now - lastUpdate
  let maxOfflineTime : ℚ := 24 * 60 * 60 * 1000
  let cappedOfflineTime := min offlineTime maxOfflineTime
  let updatedPlots := farm.plots.map (growPlot upgrades now)
  let updatedChickens := farm.chickens.map fun chicken =>
    { chicken with eggsProduced :=
        chicken.eggsProduced + offlineChickenEggs lastUpdate cappedOfflineTime chicken }
  let totalEggsProduced :=
    (farm.chickens.map (offlineChickenEggs lastUpdate cappedOfflineTime)).sum
  let coinsEarned := totalEggsProduced * EGG_TO_COIN_RATE * upgrades.eggValue
  ⟨{ farm with plots := updatedPlots, chickens := updatedChickens },
    totalEggsProduced, coinsEarned⟩

/-- Whether a seed can be taken by `collectSeed`: not yet collected, of an
unlocked type, and within 40 units of the player (squared-distance form). -/
def seedQualifies (playerX playerY : ℚ) (unlockedSeeds : List SeedType)
    (seed : Seed) : Prop :=
  seed.collected = false ∧ seed.type ∈ unlockedSeeds ∧
    (seed.x - playerX) ^ 2 + (seed.y - playerY) ^ 2 ≤ 40 ^ 2

instance (playerX playerY : ℚ) (unlockedSeeds : List SeedType) (seed : Seed) :
    Decidable (seedQualifies playerX playerY unlockedSeeds seed) := by
  unfold seedQualifies
  infer_instance

/-- The `collectSeed` scan: the first qualifying seed in stored order is marked
collected with its respawn deadline set; every other seed is returned
unchanged (once the captured `collectedSeed` variable is set, the remaining
map iterations return their input). -/
def collectSeedGo (playerX playerY : ℚ) (unlockedSeeds : List SeedType)
    (now : ℚ) : List Seed → List Seed × Option Seed
  | [] => ([], none)
  | seed :: rest =>
    if seedQualifies playerX playerY unlockedSeeds seed then
      ({ seed with collected := true,
                   respawnTime := now + SEED_RESPAWN_TIME * 1000 } :: rest, some seed)
    else
      let r := collectSeedGo playerX playerY unlockedSeeds now rest
      (seed :: r.1, r.2)

/-- `collectSeed`. -/
def collectSeed (forest : ForestState) (playerX playerY : ℚ)
    (unlockedSeeds : List SeedType) (now : ℚ) : CollectResult :=
  let r := collectSeedGo playerX playerY unlockedSeeds now forest.seeds
  ⟨{ forest with seeds := r.1 }, r.2⟩

/-- `handleForestInteraction`: run the seed collection; the new forest is kept
in every case, but the inventory is only incremented when the collected
type's count is below `seedBagCapacity`. -/
def handleForestInteraction (state : GameState) (now : ℚ) : GameState :=
  let r := collectSeed state.forest state.player.x state.player.y
    state.unlockedSeeds now
  match r.collectedSeed with
  | some collectedSeed =>
    let seedType := collectedSeed.type
    let currentAmount := state.player.seeds.get seedType
    if (currentAmount : ℚ) < state.upgrades.seedBagCapacity then
      let newSeeds := state.player.seeds.set seedType (currentAmount + 1)
      { state with forest := r.forest,
                   player := { state.player with seeds := newSeeds } }
    else { state with forest := r.forest }
  | none => { state with forest := r.forest }

/-- The base value an upgrade magnitude starts from, used by `buyUpgrade` to
re-derive the level: 10 for the seed bag, 1 for the rest. -/
def upgradeBaseValue (id : UpgradeId) : ℚ :=
  if id = UpgradeId.seedBagCapacity then 10 else 1

/-- The level `buyUpgrade` derives from the stored magnitude. -/
def upgradeCurrentLevel (upgrades : Upgrades) (d : UpgradeDefinition) : ℤ :=
  ⌊(upgrades.get d.id - upgradeBaseValue d.id) / d.effect⌋

/-- The coin cost `buyUpgrade` computes,
`Math.floor(baseCost * costMultiplier ^ currentLevel)`. -/
def upgradeCost (upgrades : Upgrades) (d : UpgradeDefinition) : ℤ :=
  ⌊d.baseCost * d.costMultiplier ^ upgradeCurrentLevel upgrades d⌋

/-- `buyUpgrade`. -/
def buyUpgrade (state : GameState) (upgradeIndex : ℕ) : GameState :=
  match UPGRADE_DEFINITIONS.get? upgradeIndex with
  | none => state
  | some upgradeDef =>
    let currentLevel := upgradeCurrentLevel state.upgrades upgradeDef
    if (upgradeDef.maxLevel : ℤ) ≤ currentLevel then state
    else
      let cost := upgradeCost state.upgrades upgradeDef
      if state.player.coins < (cost : ℚ) then state
      else
        { state with
          player := { state.player with coins := state.player.coins - (cost : ℚ) },
          upgrades := state.upgrades.set upgradeDef.id
            (state.upgrades.get upgradeDef.id + upgradeDef.effect) }

/-- `upgradeSelectedChicken`: run the farm-level tier upgrade, then keep the
original state unless it succeeded and is affordable. -/
def upgradeSelectedChicken (state : GameState) (chickenId : ℕ) : GameState :=
  let r := upgradeChicken state.farm chickenId
  if r.success = false ∨ state.player.coins < r.cost then state
  else
    { state with
      player := { state.player with coins := state.player.coins - r.cost },
      farm := r.farm }

/-- `saveGame`: persist the state verbatim with a refreshed timestamp (the
storage and serialization round-trip is modelled as the identity). -/
def saveGame (state : GameState) (now : ℚ) : GameState :=
  { state with lastUpdate := now }

/-- `loadGame` on a present, well-formed save: apply the offline catch-up once
using the previously stored timestamp, credit eggs and coins, and only then
overwrite `lastUpdate` with now. -/
def loadGame (saved : GameState) (now : ℚ) : GameState :=
  let r := calculateOfflineProgress saved.farm saved.upgrades saved.lastUpdate now
  { saved with
    farm := r.farm,
    player := { saved.player with
      eggs := saved.player.eggs + r.eggsProduced,
      coins := saved.player.coins + r.coinsEarned },
    lastUpdate := now }

/-- The per-chicken offline egg credit exactly as claim C2 words it:
`eggsPerMinute/60000` times
`min (max 0 (fedUntil - lastUpdate)) (min (now - lastUpdate) 24h)`. -/
def claimOfflineEggs (lastUpdate now : ℚ) (chicken : Chicken) : ℚ :=
  ((CHICKEN_CONFIGS chicken.type).eggsPerMinute / 60000) *
    min (max 0 (chicken.fedUntil - lastUpdate))
      (min (now - lastUpdate) (24 * 60 * 60 * 1000))

/-- The condition under which the `harvestPlot` loop harvests a plot. -/
def plotHarvestable (plotId : ℕ) (p : Plot) : Prop :=
  p.id = plotId ∧ p.planted = true ∧ 1 ≤ p.growthProgress ∧ p.seedType.isSome = true

instance (plotId : ℕ) (p : Plot) : Decidable (plotHarvestable plotId p) := by
  unfold plotHarvestable
  infer_instance

/-- The reset plot `harvestPlot` writes back for a harvested plot. -/
def resetPlot (p : Plot) : Plot :=
  { p with planted := false, seedType := none, plantedAt := none,
           growthProgress := 0 }

/-- Farm states reachable from `initializeFarm` by buying plots and chickens,
the reachability relation claim C10 quantifies over. -/
inductive ReachableFarm : FarmState → Prop
  | init : ReachableFarm initializeFarm
  | plot (farm : FarmState) : ReachableFarm farm → ReachableFarm (buyPlot farm)
  | chicken (farm : FarmState) : ReachableFarm farm → ReachableFarm (buyChicken farm)

/-- Concrete test fixture: the initial player at the origin with no resources. -/
def basePlayer : Player :=
  { x := 0, y := 0, speed := 150, seeds := ⟨0, 0, 0, 0⟩, watermelons := 0,
    coins := 0, eggs := 0 }

/-- Concrete test fixture: the initial upgrade magnitudes. -/
def baseUpgrades : Upgrades := ⟨10, 1, 1, 1, 1⟩

/-- Concrete test fixture: a forest with no entities. -/
def emptyForest : ForestState := ⟨[], [], []⟩

/-- Concrete test fixture: a full game state with no coins, the initial farm
(one basic chicken with id 0) and only basic seeds unlocked. -/
def baseState : GameState :=
  { player := basePlayer, forest := emptyForest, farm := initializeFarm,
    upgrades := baseUpgrades, currentArea := .farm, lastUpdate := 0,
    unlockedSeeds := [.basic], totalCoinsEarned := 0, zoom := 1 }

/-- Concrete test fixture: `baseState` with 50 coins. -/
def richState : GameState :=
  { baseState with player := { basePlayer with coins := 50 } }

/-- Concrete test fixture for the C2 scenario: one basic chicken fed until
60 s after the stored timestamp. -/
def offlineScenarioFarm : FarmState :=
  ⟨[], [⟨0, .basic, 60000, 0, 500, 200⟩]⟩

/-- Concrete test fixture: a player whose basic-seed count sits exactly at the
initial bag capacity of 10. -/
def fullBagPlayer : Player :=
  { x := 0, y := 0, speed := 150, seeds := ⟨10, 0, 0, 0⟩, watermelons := 0,
    coins := 0, eggs := 0 }

/-- Concrete test fixture: a forest holding a single uncollected basic seed
10 units from the origin. -/
def oneSeedForest : ForestState :=
  ⟨[⟨"seed-0", .basic, 10, 0, 0, false⟩], [], []⟩

/-- Concrete test fixture: a state in the forest with a full basic-seed bag
and one collectible basic seed in range. -/
def fullBagState : GameState :=
  { player := fullBagPlayer, forest := oneSeedForest, farm := initializeFarm,
    upgrades := baseUpgrades, currentArea := .forest, lastUpdate := 0,
    unlockedSeeds := [.basic], totalCoinsEarned := 0, zoom := 1 }

/-- Concrete test fixture: a farm with one fully grown gold plot. -/
def maturePlotFarm : FarmState :=
  ⟨[⟨0, true, some .gold, some 5, 1, 1, 100, 150⟩], []⟩

/-- A map that fixes every element of a list is the identity on it. -/
theorem list_map_eq_self {α : Type} (l : List α) (f : α → α)
    (h : ∀ x ∈ l, f x = x) : l.map f = l := by
  induction l with
  | nil => rfl
  | cons x xs ih =>
    simp only [List.map_cons]
    rw [h x (by simp), ih fun y hy => h y (by simp [hy])]

/-- A fold whose step only appends the current element leaves the carried
value alone and rebuilds the list. -/
theorem foldl_step_nomatch {α β : Type} (step : List α × β → α → List α × β)
    (l : List α) (acc : List α × β)
    (h : ∀ x ∈ l, ∀ a, step a x = (a.1 ++ [x], a.2)) :
    l.foldl step acc = (acc.1 ++ l, acc.2) := by
  induction l generalizing acc with
  | nil => simp
  | cons x xs ih =>
    rw [List.foldl_cons, h x (by simp), ih _ fun y hy a => h y (by simp [hy]) a]
    simp

/-- Reading back the field just written by `Upgrades.set`. -/
theorem Upgrades.get_set (u : Upgrades) (id : UpgradeId) (v : ℚ) :
    (u.set id v).get id = v := by
  cases id <;> rfl

/-- A zero-length capped offline window produces no eggs for any chicken. -/
theorem offlineChickenEggs_zero (lastUpdate : ℚ) (c : Chicken) :
    offlineChickenEggs lastUpdate 0 c = 0 := by
  simp only [offlineChickenEggs]
  rw [min_eq_right (le_max_left _ _), mul_zero]

/-- Claim C1 counterexample: with the initial state (0 coins, one basic
chicken with id 0), the upgrade is reported possible at cost 200, the player
cannot afford it, and `upgradeSelectedChicken` returns the state completely
unchanged — the chicken's tier does not advance. -/
theorem upgradeSelectedChicken_free_upgrade_counterexample :
    (upgradeChicken baseState.farm 0).success = true ∧
    (upgradeChicken baseState.farm 0).cost = 200 ∧
    baseState.player.coins < (upgradeChicken baseState.farm 0).cost ∧
    upgradeSelectedChicken baseState 0 = baseState ∧
    (upgradeSelectedChicken baseState 0).farm.chickens.map Chicken.type =
      [ChickenType.basic] := by
  decide

/-- Claim C1 (amended): when the player's coins are below the cost reported by
the farm-level `upgradeChicken` call, `upgradeSelectedChicken` returns the
original state unchanged — the tier mutation lives only in the discarded
farm copy, so no tier advance and no coin deduction happen. -/
theorem upgradeSelectedChicken_unaffordable_noop (state : GameState)
    (chickenId : ℕ)
    (h : state.player.coins < (upgradeChicken state.farm chickenId).cost) :
    upgradeSelectedChicken state chickenId = state := by
  unfold upgradeSelectedChicken
  rw [if_pos (Or.inr h)]

/-- Witness for the amended C1 theorem at the concrete counterexample state. -/
theorem upgradeSelectedChicken_unaffordable_noop_witness :
    upgradeSelectedChicken baseState 0 = baseState :=
  upgradeSelectedChicken_unaffordable_noop baseState 0 (by decide)

/-- Claim C2: `calculateOfflineProgress` credits each chicken exactly
`eggsPerMinute/60000 · min (max 0 (fedUntil - lastUpdate))
(min (now - lastUpdate) 24h)` eggs, the reported total is the sum of those
credits, and in the concrete 2-hour-gap scenario with one basic chicken fed
for 60 s past the stored timestamp exactly 1 egg is produced. -/
theorem calculateOfflineProgress_fed_window :
    (∀ (farm : FarmState) (upgrades : Upgrades) (lastUpdate now : ℚ),
      (calculateOfflineProgress farm upgrades lastUpdate now).farm.chickens =
        farm.chickens.map (fun c =>
          { c with eggsProduced := c.eggsProduced + claimOfflineEggs lastUpdate now c }) ∧
      (calculateOfflineProgress farm upgrades lastUpdate now).eggsProduced =
        (farm.chickens.map (claimOfflineEggs lastUpdate now)).sum) ∧
    (calculateOfflineProgress offlineScenarioFarm baseUpgrades 0 7200000).eggsProduced = 1 := by
  refine ⟨fun farm upgrades lastUpdate now => ⟨rfl, rfl⟩, ?_⟩
  norm_num [calculateOfflineProgress, offlineScenarioFarm, offlineChickenEggs,
    baseUpgrades, CHICKEN_CONFIGS, min_def, max_def]

/-- Every catalog entry has base cost and cost multiplier at least 1. -/
theorem upgradeDefs_ge_one :
    ∀ d ∈ UPGRADE_DEFINITIONS, 1 ≤ d.baseCost ∧ 1 ≤ d.costMultiplier := by
  intro d hd
  simp only [UPGRADE_DEFINITIONS, List.mem_cons, List.not_mem_nil, or_false] at hd
  rcases hd with h | h | h | h | h <;> subst h <;> norm_num

/-- Claim C3: `buyUpgrade` is a no-op at or past `maxLevel` and when coins are
below the cost `floor(baseCost · costMultiplier ^ currentLevel)`; otherwise it
deducts exactly that cost (a strict decrease whenever the derived level is
nonnegative) and raises the targeted upgrade field by exactly one `effect`. -/
theorem buyUpgrade_spec (state : GameState) (upgradeIndex : ℕ)
    (d : UpgradeDefinition)
    (hd : UPGRADE_DEFINITIONS.get? upgradeIndex = some d) :
    ((d.maxLevel : ℤ) ≤ upgradeCurrentLevel state.upgrades d →
      buyUpgrade state upgradeIndex = state) ∧
    (upgradeCurrentLevel state.upgrades d < (d.maxLevel : ℤ) →
      (state.player.coins < (upgradeCost state.upgrades d : ℚ) →
        buyUpgrade state upgradeIndex = state) ∧
      ((upgradeCost state.upgrades d : ℚ) ≤ state.player.coins →
        (buyUpgrade state upgradeIndex).player.coins =
          state.player.coins - (upgradeCost state.upgrades d : ℚ) ∧
        (buyUpgrade state upgradeIndex).upgrades.get d.id =
          state.upgrades.get d.id + d.effect ∧
        (0 ≤ upgradeCurrentLevel state.upgrades d →
          (buyUpgrade state upgradeIndex).player.coins < state.player.coins))) := by
  have hbounds : 1 ≤ d.baseCost ∧ 1 ≤ d.costMultiplier :=
    upgradeDefs_ge_one d (List.get?_mem hd)
  constructor
  · intro hmax
    simp only [buyUpgrade, hd]
    rw [if_pos hmax]
  · intro hlt
    have hnotmax : ¬((d.maxLevel : ℤ) ≤ upgradeCurrentLevel state.upgrades d) :=
      not_le.mpr hlt
    constructor
    · intro hpoor
      simp only [buyUpgrade, hd]
      rw [if_neg hnotmax, if_pos hpoor]
    · intro hrich
      have hnotpoor : ¬(state.player.coins < (upgradeCost state.upgrades d : ℚ)) :=
        not_lt.mpr hrich
      simp only [buyUpgrade, hd]
      rw [if_neg hnotmax, if_neg hnotpoor]
      refine ⟨rfl, Upgrades.get_set _ _ _, ?_⟩
      intro hlev
      have hm : (1 : ℚ) ≤ d.costMultiplier ^ upgradeCurrentLevel state.upgrades d :=
        one_le_zpow₀ hbounds.2 hlev
      have hx : (1 : ℚ) ≤ d.baseCost * d.costMultiplier ^ upgradeCurrentLevel state.upgrades d :=
        le_trans hbounds.1
          (le_mul_of_one_le_right (le_trans zero_le_one hbounds.1) hm)
      have hcost : (1 : ℤ) ≤ upgradeCost state.upgrades d := by
        rw [upgradeCost]
        exact Int.le_floor.mpr (by exact_mod_cast hx)
      have hcostQ : (0 : ℚ) < (upgradeCost state.upgrades d : ℚ) := by
        exact_mod_cast lt_of_lt_of_le Int.zero_lt_one hcost
      show state.player.coins - (upgradeCost state.upgrades d : ℚ) < state.player.coins
      linarith

/-- Witness for C3: buying the seed-bag upgrade at the initial state with 50
coins deducts 50 coins and raises the capacity by 5. -/
theorem buyUpgrade_spec_witness :
    (buyUpgrade richState 0).player.coins =
      richState.player.coins -
        (upgradeCost richState.upgrades
          ⟨.seedBagCapacity, "Seed Bag", "Carry more seeds", 50, 1.5, 10, 5⟩ : ℚ) ∧
    (buyUpgrade richState 0).upgrades.get UpgradeId.seedBagCapacity =
      richState.upgrades.get UpgradeId.seedBagCapacity + 5 ∧
    (0 ≤ upgradeCurrentLevel richState.upgrades
        ⟨.seedBagCapacity, "Seed Bag", "Carry more seeds", 50, 1.5, 10, 5⟩ →
      (buyUpgrade richState 0).player.coins < richState.player.coins) :=
  ((buyUpgrade_spec richState 0
      ⟨.seedBagCapacity, "Seed Bag", "Carry more seeds", 50, 1.5, 10, 5⟩ rfl).2
    (by norm_num [upgradeCurrentLevel, upgradeBaseValue, richState, baseState,
      basePlayer, baseUpgrades, Upgrades.get])).2
    (by norm_num [upgradeCost, upgradeCurrentLevel, upgradeBaseValue, richState,
      baseState, basePlayer, baseUpgrades, Upgrades.get])

/-- Claim C4: `saveGame` followed by `loadGame` with zero elapsed wall-clock
time reproduces the state except for the refreshed `lastUpdate`; the single
offline catch-up over the zero-length window adds no eggs and no coins and,
for a state whose plot growth is current at time `now`, leaves every plot
unchanged. -/
theorem save_load_roundtrip_zero_elapsed (state : GameState) (now : ℚ)
    (hplots : ∀ p ∈ state.farm.plots, growPlot state.upgrades now p = p) :
    loadGame (saveGame state now) now = { state with lastUpdate := now } := by
  have hcap : min (now - now) (24 * 60 * 60 * 1000 : ℚ) = 0 := by
    rw [sub_self]
    exact min_eq_left (by norm_num)
  simp only [loadGame, saveGame, calculateOfflineProgress]
  rw [hcap]
  have hch : ∀ c : Chicken,
      ({ c with eggsProduced := c.eggsProduced + offlineChickenEggs now 0 c } : Chicken) = c := by
    intro c
    rw [offlineChickenEggs_zero, add_zero]
  have hsum : (state.farm.chickens.map (offlineChickenEggs now 0)).sum = 0 := by
    refine List.sum_eq_zero ?_
    intro x hx
    obtain ⟨c, _, rfl⟩ := List.mem_map.mp hx
    exact offlineChickenEggs_zero now c
  rw [list_map_eq_self state.farm.chickens _ fun c _ => hch c,
    list_map_eq_self state.farm.plots _ hplots, hsum]
  simp [zero_mul, add_zero]

/-- Witness for C4 at the concrete initial state (no planted plots) and
time 5. -/
theorem save_load_roundtrip_zero_elapsed_witness :
    loadGame (saveGame baseState 5) 5 = { baseState with lastUpdate := 5 } :=
  save_load_roundtrip_zero_elapsed baseState 5 (by decide)

/-- Every seed type has a positive configured grow time. -/
theorem seedConfig_growTime_pos (st : SeedType) : 0 < (SEED_CONFIGS st).growTime := by
  cases st <;> norm_num [SEED_CONFIGS]

/-- `growPlot` keeps `growthProgress` inside `[0, 1]` whenever fertilities are
positive, the plant timestamp is not in the future, and the input progress was
already inside `[0, 1]`. -/
theorem growPlot_progress_bounds (upgrades : Upgrades) (now : ℚ) (p : Plot)
    (hf : 0 < p.fertilityLevel) (hu : 0 < upgrades.plotFertility)
    (h0 : 0 ≤ p.growthProgress) (h1 : p.growthProgress ≤ 1)
    (ht : ∀ t0 ∈ p.plantedAt, t0 ≤ now) :
    0 ≤ (growPlot upgrades now p).growthProgress ∧
      (growPlot upgrades now p).growthProgress ≤ 1 := by
  unfold growPlot
  split
  case _ st t0 hpl hst hpa =>
    split
    · exact ⟨h0, h1⟩
    · dsimp only
      constructor
      · refine le_min (by norm_num) (div_nonneg (div_nonneg ?_ (by norm_num)) ?_)
        · refine sub_nonneg.mpr (ht t0 ?_)
          rw [hpa]
          rfl
        · exact le_of_lt (div_pos (seedConfig_growTime_pos st) (mul_pos hf hu))
      · exact min_le_left _ _
  case _ => exact ⟨h0, h1⟩

/-- For a fixed plot and fixed fertilities, the recomputed progress is
monotone in the current time. -/
theorem growPlot_progress_mono (upgrades : Upgrades) (p : Plot) (now1 now2 : ℚ)
    (h12 : now1 ≤ now2) (hf : 0 < p.fertilityLevel)
    (hu : 0 < upgrades.plotFertility) :
    (growPlot upgrades now1 p).growthProgress ≤
      (growPlot upgrades now2 p).growthProgress := by
  unfold growPlot
  rcases hpl : p.planted with _ | _ <;>
    rcases hst : p.seedType with _ | st <;>
      rcases hpa : p.plantedAt with _ | t0 <;>
        simp only
  any_goals exact le_rfl
  split
  · exact le_rfl
  · dsimp only
    have hg : 0 < (SEED_CONFIGS st).growTime / (p.fertilityLevel * upgrades.plotFertility) :=
      div_pos (seedConfig_growTime_pos st) (mul_pos hf hu)
    refine min_le_min le_rfl ?_
    rw [div_le_div_iff_of_pos_right hg, div_le_div_iff_of_pos_right (by norm_num : (0:ℚ) < 1000)]
    exact sub_le_sub_right h12 t0

/-- Claim C5: plots coming out of `updateFarm` and `calculateOfflineProgress`
have `growthProgress` inside `[0, 1]` (given positive fertilities, plant
timestamps not in the future and well-formed input progress); the progress is
recomputed purely from the elapsed time and the combined fertility —
independently of the stored progress — and is monotone in elapsed time. -/
theorem growthProgress_bounds_monotone (farm : FarmState) (upgrades : Upgrades)
    (deltaTime lastUpdate now : ℚ) (hu : 0 < upgrades.plotFertility)
    (hplots : ∀ p ∈ farm.plots, 0 < p.fertilityLevel ∧ 0 ≤ p.growthProgress ∧
      p.growthProgress ≤ 1 ∧ ∀ t0 ∈ p.plantedAt, t0 ≤ now) :
    (∀ p ∈ (updateFarm farm upgrades deltaTime now).farm.plots,
      0 ≤ p.growthProgress ∧ p.growthProgress ≤ 1) ∧
    (∀ p ∈ (calculateOfflineProgress farm upgrades lastUpdate now).farm.plots,
      0 ≤ p.growthProgress ∧ p.growthProgress ≤ 1) ∧
    (∀ (p : Plot) (st : SeedType) (t0 : ℚ), p.planted = true →
      p.seedType = some st → p.plantedAt = some t0 → ¬t0 = 0 →
      (growPlot upgrades now p).growthProgress =
        min 1 (((now - t0) / 1000) /
          ((SEED_CONFIGS st).growTime / (p.fertilityLevel * upgrades.plotFertility)))) ∧
    (∀ (p : Plot) (now1 now2 : ℚ), now1 ≤ now2 → 0 < p.fertilityLevel →
      (growPlot upgrades now1 p).growthProgress ≤
        (growPlot upgrades now2 p).growthProgress) := by
  have hmem : ∀ p ∈ farm.plots.map (growPlot upgrades now),
      0 ≤ p.growthProgress ∧ p.growthProgress ≤ 1 := by
    intro p hp
    obtain ⟨q, hq, rfl⟩ := List.mem_map.mp hp
    obtain ⟨hf, h0, h1, ht⟩ := hplots q hq
    exact growPlot_progress_bounds upgrades now q hf hu h0 h1 ht
  refine ⟨hmem, hmem, ?_, ?_⟩
  · intro p st t0 hp hs ha ht0
    unfold growPlot
    rw [hp, hs, ha]
    simp only [if_neg ht0]
  · intro p now1 now2 h12 hf
    exact growPlot_progress_mono upgrades p now1 now2 h12 hf hu

/-- Witness for C5 at the initial farm, initial upgrades and time 0. -/
theorem growthProgress_bounds_monotone_witness :
    (∀ p ∈ (updateFarm initializeFarm baseUpgrades 100 0).farm.plots,
      0 ≤ p.growthProgress ∧ p.growthProgress ≤ 1) ∧
    (∀ p ∈ (calculateOfflineProgress initializeFarm baseUpgrades 0 0).farm.plots,
      0 ≤ p.growthProgress ∧ p.growthProgress ≤ 1) ∧
    (∀ (p : Plot) (st : SeedType) (t0 : ℚ), p.planted = true →
      p.seedType = some st → p.plantedAt = some t0 → ¬t0 = 0 →
      (growPlot baseUpgrades 0 p).growthProgress =
        min 1 (((0 - t0) / 1000) /
          ((SEED_CONFIGS st).growTime / (p.fertilityLevel * baseUpgrades.plotFertility)))) ∧
    (∀ (p : Plot) (now1 now2 : ℚ), now1 ≤ now2 → 0 < p.fertilityLevel →
      (growPlot baseUpgrades now1 p).growthProgress ≤
        (growPlot baseUpgrades now2 p).growthProgress) :=
  growthProgress_bounds_monotone initializeFarm baseUpgrades 100 0 0
    (by norm_num [baseUpgrades]) (by decide)

/-- A plot that is not harvestable passes through the `harvestPlot` step
unchanged. -/
theorem harvestStep_nomatch (plotId : ℕ) (p : Plot)
    (h : ¬plotHarvestable plotId p) (acc : List Plot × ℚ) :
    harvestStep plotId acc p = (acc.1 ++ [p], acc.2) := by
  unfold harvestStep
  cases hst : p.seedType with
  | none => rfl
  | some st =>
    dsimp only
    rw [if_neg]
    intro hc
    exact h ⟨hc.1, hc.2.1, hc.2.2, by rw [hst]; rfl⟩

/-- Folding the harvest step over a list with no harvestable plot only copies
the list. -/
theorem harvest_foldl_nomatch (plotId : ℕ) (l : List Plot) (acc : List Plot × ℚ)
    (h : ∀ p ∈ l, ¬plotHarvestable plotId p) :
    l.foldl (harvestStep plotId) acc = (acc.1 ++ l, acc.2) :=
  foldl_step_nomatch (harvestStep plotId) l acc
    fun p hp a => harvestStep_nomatch plotId p (h p hp) a

/-- Claim C6: `harvestPlot` is a complete no-op (0 watermelons, farm equal)
when no plot is harvestable under the given id — in particular when the
targeted plot is unplanted or immature — and on a planted mature plot it
resets exactly that plot to empty and returns the seed type's configured
yield. -/
theorem harvestPlot_spec (farm : FarmState) (plotId : ℕ) :
    ((∀ p ∈ farm.plots, ¬plotHarvestable plotId p) →
      harvestPlot farm plotId = ⟨farm, 0⟩) ∧
    (∀ (l1 l2 : List Plot) (p : Plot) (st : SeedType),
      farm.plots = l1 ++ p :: l2 →
      (∀ q ∈ l1, ¬plotHarvestable plotId q) →
      (∀ q ∈ l2, ¬plotHarvestable plotId q) →
      p.id = plotId → p.planted = true → 1 ≤ p.growthProgress →
      p.seedType = some st →
      harvestPlot farm plotId =
        ⟨{ farm with plots := l1 ++ resetPlot p :: l2 },
          (SEED_CONFIGS st).yield⟩) ∧
    (∀ (l1 l2 : List Plot) (p : Plot),
      farm.plots = l1 ++ p :: l2 →
      (∀ q ∈ l1, q.id ≠ plotId) → (∀ q ∈ l2, q.id ≠ plotId) →
      p.id = plotId →
      ¬(p.planted = true ∧ 1 ≤ p.growthProgress ∧ p.seedType.isSome = true) →
      harvestPlot farm plotId = ⟨farm, 0⟩) := by
  have hnone : (∀ p ∈ farm.plots, ¬plotHarvestable plotId p) →
      harvestPlot farm plotId = ⟨farm, 0⟩ := by
    intro h
    unfold harvestPlot
    rw [harvest_foldl_nomatch plotId farm.plots ([], 0) h]
    simp
  refine ⟨hnone, ?_, ?_⟩
  · intro l1 l2 p st hsplit h1 h2 hid hpl hprog hst
    unfold harvestPlot
    rw [hsplit, List.foldl_append, harvest_foldl_nomatch plotId l1 ([], 0) h1,
      List.nil_append, List.foldl_cons]
    have hstep : harvestStep plotId (l1, 0) p =
        (l1 ++ [resetPlot p], (SEED_CONFIGS st).yield) := by
      unfold harvestStep
      rw [hst]
      dsimp only
      rw [if_pos ⟨hid, hpl, hprog⟩]
      rfl
    rw [hstep, harvest_foldl_nomatch plotId l2 _ h2]
    simp [List.append_assoc]
  · intro l1 l2 p hsplit h1 h2 hid hbad
    refine hnone ?_
    intro q hq
    rw [hsplit] at hq
    rcases List.mem_append.mp hq with hq1 | hq2
    · exact fun hh => h1 q hq1 hh.1
    · rcases hq2 with _ | ⟨_, hq2⟩
      · exact fun hh => hbad ⟨hh.2.1, hh.2.2.1, hh.2.2.2⟩
      · exact fun hh => h2 q hq2 hh.1

/-- Witness for C6: harvesting the mature gold plot resets it and yields 8. -/
theorem harvestPlot_spec_witness :
    harvestPlot maturePlotFarm 0 =
      ⟨{ maturePlotFarm with
          plots := [resetPlot ⟨0, true, some .gold, some 5, 1, 1, 100, 150⟩] },
        (SEED_CONFIGS SeedType.gold).yield⟩ :=
  (harvestPlot_spec maturePlotFarm 0).2.1 [] []
    ⟨0, true, some .gold, some 5, 1, 1, 100, 150⟩ .gold rfl (by decide)
    (by decide) rfl rfl (by decide) rfl

/-- A chicken with a different id passes through the `feedChicken` step
unchanged. -/
theorem feedStep_nomatch (chickenId : ℕ) (upgrades : Upgrades) (now : ℚ)
    (c : Chicken) (h : c.id ≠ chickenId) (acc : List Chicken × ℚ) :
    feedStep chickenId upgrades now acc c = (acc.1 ++ [c], acc.2) := by
  unfold feedStep
  rw [if_neg h]

/-- A chicken that does not match the id, or is already at the top tier,
passes through the `upgradeChicken` step unchanged. -/
theorem upgradeStep_nomatch (chickenId : ℕ) (c : Chicken)
    (h : c.id = chickenId → nextChickenType c.type = none)
    (acc : List Chicken × ℚ × Bool) :
    upgradeStep chickenId acc c = (acc.1 ++ [c], acc.2) := by
  unfold upgradeStep
  by_cases hid : c.id = chickenId
  · rw [if_pos hid, h hid]
  · rw [if_neg hid]

/-- Claim C9: commands aimed at entities that do not exist (or cannot accept
the command) are silent no-ops: `plantSeed` with no matching empty plot,
`feedChicken` with no matching chicken, and `upgradeChicken` when every
matching chicken is already cosmic (in particular when none matches) return
the farm unchanged with 0 consumption, zero cost and `success = false`. -/
theorem invalid_ids_noop (farm : FarmState) (upgrades : Upgrades) (now : ℚ)
    (plotId chickenId : ℕ) (seedType : SeedType) :
    ((∀ p ∈ farm.plots, ¬(p.id = plotId ∧ p.planted = false)) →
      plantSeed farm plotId seedType now = farm) ∧
    ((∀ c ∈ farm.chickens, c.id ≠ chickenId) →
      feedChicken farm chickenId upgrades now = ⟨farm, 0⟩) ∧
    ((∀ c ∈ farm.chickens, c.id = chickenId → c.type = ChickenType.cosmic) →
      upgradeChicken farm chickenId = ⟨farm, 0, false⟩) := by
  refine ⟨?_, ?_, ?_⟩
  · intro h
    unfold plantSeed
    rw [list_map_eq_self]
    intro p hp
    rw [if_neg (h p hp)]
  · intro h
    unfold feedChicken
    rw [foldl_step_nomatch (feedStep chickenId upgrades now) farm.chickens ([], 0)
      fun c hc a => feedStep_nomatch chickenId upgrades now c (h c hc) a]
    simp
  · intro h
    unfold upgradeChicken
    rw [foldl_step_nomatch (upgradeStep chickenId) farm.chickens ([], 0, false)
      fun c hc a => upgradeStep_nomatch chickenId c
        (fun hid => by rw [h c hc hid]; rfl) a]
    simp

/-- Witness for C9 at the initial farm with the absent entity id 99. -/
theorem invalid_ids_noop_witness :
    plantSeed initializeFarm 99 SeedType.basic 0 = initializeFarm ∧
    feedChicken initializeFarm 99 baseUpgrades 0 = ⟨initializeFarm, 0⟩ ∧
    upgradeChicken initializeFarm 99 = ⟨initializeFarm, 0, false⟩ :=
  ⟨(invalid_ids_noop initializeFarm baseUpgrades 0 99 99 .basic).1 (by decide),
    (invalid_ids_noop initializeFarm baseUpgrades 0 99 99 .basic).2.1 (by decide),
    (invalid_ids_noop initializeFarm baseUpgrades 0 99 99 .basic).2.2 (by decide)⟩

/-- The `collectSeed` scan over a list with no qualifying seed changes
nothing and reports no seed. -/
theorem collectSeedGo_nomatch (playerX playerY : ℚ) (unlockedSeeds : List SeedType)
    (now : ℚ) (l : List Seed)
    (h : ∀ s ∈ l, ¬seedQualifies playerX playerY unlockedSeeds s) :
    collectSeedGo playerX playerY unlockedSeeds now l = (l, none) := by
  induction l with
  | nil => rfl
  | cons s rest ih =>
    unfold collectSeedGo
    rw [if_neg (h s (by simp)), ih fun q hq => h q (by simp [hq])]

/-- The `collectSeed` scan marks exactly the first qualifying seed. -/
theorem collectSeedGo_first (playerX playerY : ℚ) (unlockedSeeds : List SeedType)
    (now : ℚ) (l1 l2 : List Seed) (s : Seed)
    (h1 : ∀ q ∈ l1, ¬seedQualifies playerX playerY unlockedSeeds q)
    (hs : seedQualifies playerX playerY unlockedSeeds s) :
    collectSeedGo playerX playerY unlockedSeeds now (l1 ++ s :: l2) =
      (l1 ++ { s with
          collected := true,
          respawnTime := now + SEED_RESPAWN_TIME * 1000 } :: l2, some s) := by
  induction l1 with
  | nil =>
    rw [List.nil_append, List.nil_append]
    unfold collectSeedGo
    rw [if_pos hs]
  | cons q rest ih =>
    rw [List.cons_append, List.cons_append]
    unfold collectSeedGo
    rw [if_neg (h1 q (by simp)), ih fun r hr => h1 r (by simp [hr])]

/-- Inversion: if the `collectSeed` scan reports a seed, that seed was an
uncollected entry of the input list and exactly it got marked collected. -/
theorem collectSeedGo_some_split (playerX playerY : ℚ)
    (unlockedSeeds : List SeedType) (now : ℚ) :
    ∀ (l : List Seed) (s : Seed),
      (collectSeedGo playerX playerY unlockedSeeds now l).2 = some s →
      s.collected = false ∧ ∃ l1 l2, l = l1 ++ s :: l2 ∧
        (collectSeedGo playerX playerY unlockedSeeds now l).1 =
          l1 ++ { s with
              collected := true,
              respawnTime := now + SEED_RESPAWN_TIME * 1000 } :: l2 := by
  intro l
  induction l with
  | nil =>
    intro s h
    simp [collectSeedGo] at h
  | cons q rest ih =>
    intro s h
    by_cases hq : seedQualifies playerX playerY unlockedSeeds q
    · unfold collectSeedGo at h ⊢
      rw [if_pos hq] at h ⊢
      obtain rfl : q = s := by injection h
      exact ⟨hq.1, [], rest, rfl, rfl⟩
    · unfold collectSeedGo at h ⊢
      rw [if_neg hq] at h ⊢
      obtain ⟨hcol, l1, l2, hl, hfst⟩ := ih s h
      refine ⟨hcol, q :: l1, l2, by rw [List.cons_append, hl], ?_⟩
      dsimp only
      rw [hfst, List.cons_append]

/-- Claim C8: `collectSeed` returns null and leaves the seeds unchanged when
no uncollected, unlocked seed lies within 40 units, and otherwise collects
exactly the first such seed in stored order, setting its respawn deadline to
`now + 15000` ms and leaving every other seed unchanged. -/
theorem collectSeed_first_match (forest : ForestState) (playerX playerY : ℚ)
    (unlockedSeeds : List SeedType) (now : ℚ) :
    ((∀ s ∈ forest.seeds, ¬seedQualifies playerX playerY unlockedSeeds s) →
      collectSeed forest playerX playerY unlockedSeeds now = ⟨forest, none⟩) ∧
    (∀ (l1 l2 : List Seed) (s : Seed),
      forest.seeds = l1 ++ s :: l2 →
      (∀ q ∈ l1, ¬seedQualifies playerX playerY unlockedSeeds q) →
      seedQualifies playerX playerY unlockedSeeds s →
      collectSeed forest playerX playerY unlockedSeeds now =
        ⟨{ forest with seeds := l1 ++
            { s with collected := true, respawnTime := now + 15000 } :: l2 },
          some s⟩) := by
  have hresp : SEED_RESPAWN_TIME * 1000 = (15000 : ℚ) := by
    norm_num [SEED_RESPAWN_TIME]
  constructor
  · intro h
    simp only [collectSeed]
    rw [collectSeedGo_nomatch playerX playerY unlockedSeeds now forest.seeds h]
  · intro l1 l2 s hsplit h1 hs
    simp only [collectSeed]
    rw [hsplit, collectSeedGo_first playerX playerY unlockedSeeds now l1 l2 s h1 hs,
      hresp]

/-- Witness for C8: the single basic seed 10 units away is collected and its
respawn deadline set. -/
theorem collectSeed_first_match_witness :
    collectSeed oneSeedForest 0 0 [SeedType.basic] 0 =
      ⟨{ oneSeedForest with seeds :=
          [] ++ { (⟨"seed-0", .basic, 10, 0, 0, false⟩ : Seed) with
            collected := true, respawnTime := (0 : ℚ) + 15000 } :: [] },
        some ⟨"seed-0", .basic, 10, 0, 0, false⟩⟩ :=
  (collectSeed_first_match oneSeedForest 0 0 [SeedType.basic] 0).2 [] []
    ⟨"seed-0", .basic, 10, 0, 0, false⟩ rfl (by decide)
    (by constructor
        · rfl
        · exact ⟨by simp, by norm_num [seedQualifies]⟩)

/-- Claim C7: when the collected seed's inventory count already equals the
bag capacity, the interaction keeps the player (and the inventory count)
unchanged, yet the new forest — with the seed marked collected and its
respawn deadline set — is kept, so the seed is consumed from the field. -/
theorem forest_interaction_at_capacity (state : GameState) (now : ℚ) (s : Seed)
    (hc : (collectSeed state.forest state.player.x state.player.y
        state.unlockedSeeds now).collectedSeed = some s)
    (hcap : (state.player.seeds.get s.type : ℚ) = state.upgrades.seedBagCapacity) :
    handleForestInteraction state now =
      { state with forest := (collectSeed state.forest state.player.x
          state.player.y state.unlockedSeeds now).forest } ∧
    (handleForestInteraction state now).player = state.player ∧
    s.collected = false ∧
    (handleForestInteraction state now).forest.seeds ≠ state.forest.seeds ∧
    ∃ l1 l2, state.forest.seeds = l1 ++ s :: l2 ∧
      (handleForestInteraction state now).forest.seeds =
        l1 ++ { s with collected := true, respawnTime := now + 15000 } :: l2 := by
  have hresp : SEED_RESPAWN_TIME * 1000 = (15000 : ℚ) := by
    norm_num [SEED_RESPAWN_TIME]
  have hmain : handleForestInteraction state now =
      { state with forest := (collectSeed state.forest state.player.x
          state.player.y state.unlockedSeeds now).forest } := by
    simp only [handleForestInteraction]
    rw [hc]
    dsimp only
    rw [if_neg (by rw [hcap]; exact lt_irrefl _)]
  have hgo : (collectSeedGo state.player.x state.player.y state.unlockedSeeds now
      state.forest.seeds).2 = some s := hc
  obtain ⟨hcol, l1, l2, hl, hfst⟩ :=
    collectSeedGo_some_split state.player.x state.player.y state.unlockedSeeds now
      state.forest.seeds s hgo
  have hseeds : (handleForestInteraction state now).forest.seeds =
      l1 ++ { s with collected := true, respawnTime := now + 15000 } :: l2 := by
    rw [hmain]
    show (collectSeedGo state.player.x state.player.y state.unlockedSeeds now
        state.forest.seeds).1 = _
    rw [hfst, hresp]
  refine ⟨hmain, by rw [hmain], hcol, ?_, l1, l2, hl, hseeds⟩
  rw [hseeds, hl]
  intro heq
  have hhead := List.head_eq_of_cons_eq (List.append_cancel_left heq)
  have : (true : Bool) = false := by
    rw [← hcol]
    exact congrArg Seed.collected hhead
  exact Bool.noConfusion this

/-- Witness for C7: with a full basic-seed bag, interacting still consumes the
nearby basic seed from the field while the player is untouched. -/
theorem forest_interaction_at_capacity_witness :
    handleForestInteraction fullBagState 0 =
      { fullBagState with forest := (collectSeed fullBagState.forest
          fullBagState.player.x fullBagState.player.y
          fullBagState.unlockedSeeds 0).forest } ∧
    (handleForestInteraction fullBagState 0).player = fullBagState.player ∧
    (⟨"seed-0", .basic, 10, 0, 0, false⟩ : Seed).collected = false ∧
    (handleForestInteraction fullBagState 0).forest.seeds ≠
      fullBagState.forest.seeds ∧
    ∃ l1 l2, fullBagState.forest.seeds =
        l1 ++ (⟨"seed-0", .basic, 10, 0, 0, false⟩ : Seed) :: l2 ∧
      (handleForestInteraction fullBagState 0).forest.seeds =
        l1 ++ { (⟨"seed-0", .basic, 10, 0, 0, false⟩ : Seed) with
          collected := true, respawnTime := (0 : ℚ) + 15000 } :: l2 :=
  forest_interaction_at_capacity fullBagState 0
    ⟨"seed-0", .basic, 10, 0, 0, false⟩
    (by rw [show (collectSeed fullBagState.forest fullBagState.player.x
        fullBagState.player.y fullBagState.unlockedSeeds 0).collectedSeed =
          (collectSeedGo fullBagState.player.x fullBagState.player.y
            fullBagState.unlockedSeeds 0 fullBagState.forest.seeds).2 from rfl]
        norm_num [collectSeedGo, seedQualifies, fullBagState, oneSeedForest,
          fullBagPlayer])
    (by norm_num [fullBagState, fullBagPlayer, baseUpgrades, SeedInventory.get])

/-- Claim C10: in every farm reachable from `initializeFarm` by buying plots
and chickens, plot ids and chicken ids are exactly the indices into their
arrays, hence pairwise distinct. -/
theorem farm_ids_indexed (farm : FarmState) (h : ReachableFarm farm) :
    farm.plots.map Plot.id = List.range farm.plots.length ∧
    farm.chickens.map Chicken.id = List.range farm.chickens.length ∧
    (farm.plots.map Plot.id).Nodup ∧ (farm.chickens.map Chicken.id).Nodup := by
  have key : farm.plots.map Plot.id = List.range farm.plots.length ∧
      farm.chickens.map Chicken.id = List.range farm.chickens.length := by
    induction h with
    | init => exact ⟨by decide, by decide⟩
    | plot f hf ih =>
      obtain ⟨ih1, ih2⟩ := ih
      refine ⟨?_, by simpa [buyPlot] using ih2⟩
      simp only [buyPlot, List.map_append, List.length_append, List.map_cons,
        List.map_nil, List.length_cons, List.length_nil, ih1]
      simp [List.range_succ]
    | chicken f hf ih =>
      obtain ⟨ih1, ih2⟩ := ih
      refine ⟨by simpa [buyChicken] using ih1, ?_⟩
      simp only [buyChicken, List.map_append, List.length_append, List.map_cons,
        List.map_nil, List.length_cons, List.length_nil, ih2]
      simp [List.range_succ]
  exact ⟨key.1, key.2, key.1 ▸ List.nodup_range _, key.2 ▸ List.nodup_range _⟩

/-- Witness for C10 at the initial farm itself. -/
theorem farm_ids_indexed_witness :
    initializeFarm.plots.map Plot.id = List.range initializeFarm.plots.length ∧
    initializeFarm.chickens.map Chicken.id =
      List.range initializeFarm.chickens.length ∧
    (initializeFarm.plots.map Plot.id).Nodup ∧
    (initializeFarm.chickens.map Chicken.id).Nodup :=
  farm_ids_indexed initializeFarm ReachableFarm.init

end WatermelonFarm
